import Mathlib

/-!
Shallow embedding of the Horology AI watch-analyst application core
(src/App.tsx, src/services/geminiService.ts, src/types.ts) and proofs
about its collection store, image reordering, valuation assembly and
workflow state machine.
-/

namespace Horology

/-! ## Data model (src/types.ts) -/

/-- Application states, from `AppState` in types.ts. -/
inductive AppState
  | IDLE
  | ANALYZING_IMAGE
  | IDENTITY_CONFIRMED
  | SEARCHING_MARKET
  | REPORT_READY
  | VIEWING_COLLECTION
  | VIEWING_COLLECTION_DETAIL
  | ERROR
  deriving DecidableEq

/-- Price trend enumeration, from `MarketData.trend` in types.ts. -/
inductive Trend
  | rising
  | falling
  | stable
  deriving DecidableEq

/-- A grounding citation `{ title, uri }`, from `MarketData.sources` in types.ts. -/
structure Source where
  title : String
  uri : String
  deriving DecidableEq

/-- `WatchIdentity` from types.ts. `bestImageIndex` is optional; the JSON
schema declares it an integer, modelled as `Int`. `confidence` is a number
0-100, modelled as `Int` (no claim does arithmetic on it). -/
structure WatchIdentity where
  brand : String
  model : String
  referenceNumber : String
  estimatedYear : String
  confidence : Int
  description : String
  bestImageIndex : Option Int
  deriving DecidableEq

/-- The runtime shape of market data as actually built by
`getMarketValuation` (geminiService.ts 129-136): the parsed JSON payload is
spread without client-side validation, so every schema field may be absent
(`Option`), while `currency` is force-set by the caller and `sources` is
always attached. Prices are JSON numbers; claims never compute with them,
so they are modelled as `Int`. -/
structure MarketData where
  lowPrice : Option Int
  highPrice : Option Int
  averagePrice : Option Int
  retailPrice : Option Int
  currency : String
  priceSource : Option String
  trend : Option Trend
  history : Option String
  reviewsSummary : Option String
  pros : Option (List String)
  cons : Option (List String)
  sources : List Source
  deriving DecidableEq

/-- `AppraisalReport` from types.ts, with `marketData` in its runtime shape. -/
structure AppraisalReport where
  id : String
  date : String
  imageUrls : List String
  purchasePrice : Int
  identity : WatchIdentity
  marketData : MarketData
  deriving DecidableEq

/-! ## JavaScript truthiness helpers

The migration and error handlers use JavaScript `x || d` and `x ? a : b`.
For a string field, `undefined`, `null` and `""` are falsy; for an array
field a present array is always truthy (even `[]`). -/

/-- JavaScript `x || d` on an optional string field: missing or empty
yields the default. -/
def jsOrString (x : Option String) (d : String) : String :=
  match x with
  | none => d
  | some s => if s = "" then d else s

/-- JavaScript `x || d` on an optional array field: a present array is
kept (arrays are truthy), a missing one yields the default. -/
def jsOrList (x : Option (List String)) (d : List String) : List String :=
  match x with
  | none => d
  | some l => l

/-! ## Collection Store: load-time migration (App.tsx 26-52)

Persisted records are loosely typed: older saves may lack `imageUrls`
(having a legacy single `imageUrl`), and their market data may lack
`pros`, `cons`, `currency` or `priceSource`. The migration `migratedData`
normalizes each record at read time. The record shape below keeps every
field the migration reads or carries through via the `...item` spread. -/

/-- The loosely-typed persisted market-data shape read by the migration. -/
structure LegacyMarketData where
  lowPrice : Option Int
  highPrice : Option Int
  averagePrice : Option Int
  retailPrice : Option Int
  currency : Option String
  priceSource : Option String
  trend : Option Trend
  history : Option String
  reviewsSummary : Option String
  pros : Option (List String)
  cons : Option (List String)
  sources : Option (List Source)
  deriving DecidableEq

/-- The loosely-typed persisted record shape read by the migration. The
`...item` spread keeps unknown/legacy fields (such as `imageUrl`) in the
output, so migration maps this shape to itself. -/
structure LegacyRecord where
  id : String
  date : String
  imageUrl : Option String
  imageUrls : Option (List String)
  purchasePrice : Option Int
  identity : Option WatchIdentity
  marketData : LegacyMarketData
  deriving DecidableEq

/-- One step of the load-time migration (App.tsx 36-46):
`imageUrls: item.imageUrls || (item.imageUrl ? [item.imageUrl] : [])`,
and defaults for `pros`, `cons`, `currency`, `priceSource` on the
market data; everything else is carried through by the spreads. -/
def migrateRecord (item : LegacyRecord) : LegacyRecord :=
  { item with
    imageUrls := some (jsOrList item.imageUrls
      (match item.imageUrl with
        | none => []
        | some u => if u = "" then [] else [u])),
    marketData := { item.marketData with
      pros := some (jsOrList item.marketData.pros []),
      cons := some (jsOrList item.marketData.cons []),
      currency := some (jsOrString item.marketData.currency "HKD"),
      priceSource := some (jsOrString item.marketData.priceSource "Market Data") } }

/-- The full load-time migration (App.tsx 36-46): `parsedData.map(...)`. -/
def migratedData (parsedData : List LegacyRecord) : List LegacyRecord :=
  parsedData.map migrateRecord

theorem jsOrString_some_idem (x : Option String) (d : String) (hd : d ≠ "") :
    jsOrString (some (jsOrString x d)) d = jsOrString x d := by
  cases x with
  | none => simp [jsOrString, hd]
  | some s =>
    by_cases hs : s = "" <;> simp [jsOrString, hs, hd]

theorem migrateRecord_idem (item : LegacyRecord) :
    migrateRecord (migrateRecord item) = migrateRecord item := by
  simp [migrateRecord, jsOrList,
    jsOrString_some_idem item.marketData.currency "HKD" (by decide),
    jsOrString_some_idem item.marketData.priceSource "Market Data" (by decide)]

/-- C1: applying the Collection Store's load-time migration twice to a
persisted legacy record set yields exactly the same output as applying
it once. -/
theorem migratedData_idempotent (parsedData : List LegacyRecord) :
    migratedData (migratedData parsedData) = migratedData parsedData := by
  induction parsedData with
  | nil => rfl
  | cons item rest ih =>
      simp only [migratedData, List.map_cons] at ih ⊢
      rw [migrateRecord_idem, ih]

/-! ## Best-cover image reordering (App.tsx 127-132)

Inside `analyzeImage`, when the gateway returns a numeric `bestImageIndex`
in range, the designated image is moved to the front:
`[bestImg, ...currentFullImages.filter((_, i) => i !== bestImageIndex)]`. -/

/-- The index-based filter `currentFullImages.filter((_, i) => i !== k)`,
written with an explicit running index starting at `n`. -/
def filterIndexNe (k : Int) : Nat → List String → List String
  | _, [] => []
  | i, img :: rest =>
      if (i : Int) ≠ k then img :: filterIndexNe k (i + 1) rest
      else filterIndexNe k (i + 1) rest

/-- The reordering block of `analyzeImage` (App.tsx 127-132): if
`bestImageIndex` is a number with `0 <= k < length`, the best image is
moved to the front and index `k` is filtered out of the rest; otherwise
the list is left unchanged. -/
def reorderImages (currentFullImages : List String) (bestImageIndex : Option Int) :
    List String :=
  match bestImageIndex with
  | none => currentFullImages
  | some k =>
      if h : 0 ≤ k ∧ k < (currentFullImages.length : Int) then
        currentFullImages.get ⟨k.toNat, by omega⟩ :: filterIndexNe k 0 currentFullImages
      else currentFullImages

theorem filterIndexNe_of_lt (k : Int) (l : List String) :
    ∀ n : Nat, k < (n : Int) → filterIndexNe k n l = l := by
  induction l with
  | nil => intro n _; rfl
  | cons x xs ih =>
      intro n hn
      have hx : (n : Int) ≠ k := by omega
      rw [filterIndexNe, if_pos hx, ih (n + 1) (by push_cast; omega)]

theorem filterIndexNe_eraseIdx (l : List String) :
    ∀ (n j : Nat), j < l.length →
      filterIndexNe ((n + j : Nat) : Int) n l = l.eraseIdx j := by
  induction l with
  | nil => intro n j h; simp at h
  | cons x xs ih =>
      intro n j h
      cases j with
      | zero =>
          have hx : ¬((n : Int) ≠ ((n + 0 : Nat) : Int)) := by push_cast; omega
          rw [filterIndexNe, if_neg hx, List.eraseIdx]
          exact filterIndexNe_of_lt _ _ (n + 1) (by push_cast; omega)
      | succ j' =>
          have hx : (n : Int) ≠ ((n + (j' + 1) : Nat) : Int) := by push_cast; omega
          rw [filterIndexNe, if_pos hx, List.eraseIdx]
          have hcast : ((n + (j' + 1) : Nat) : Int) = (((n + 1) + j' : Nat) : Int) := by
            push_cast; omega
          rw [hcast, ih (n + 1) j' (by simpa using h)]

/-- C2: for an image list `L` and best-cover index `k`, if `k` is an
integer with `0 ≤ k < L.length` the reordered list is `L[k]` followed by
`L` with element `k` removed (relative order preserved); if `k` is
absent, negative or out of range, the list is unchanged. -/
theorem reorderImages_spec (L : List String) (k : Int) :
    (∀ h : 0 ≤ k ∧ k < (L.length : Int),
        reorderImages L (some k) = L.get ⟨k.toNat, by omega⟩ :: L.eraseIdx k.toNat) ∧
    (¬(0 ≤ k ∧ k < (L.length : Int)) → reorderImages L (some k) = L) ∧
    reorderImages L none = L := by
  refine ⟨?_, ?_, rfl⟩
  · intro h
    have hj : k.toNat < L.length := by omega
    have hcast : ((0 + k.toNat : Nat) : Int) = k := by omega
    have hfilter := filterIndexNe_eraseIdx L 0 k.toNat hj
    rw [hcast] at hfilter
    rw [reorderImages, dif_pos h, hfilter]
  · intro h
    rw [reorderImages, dif_neg h]

/-- Concrete check of C2 at `["A","B","C"]` with in-range index 1 and
out-of-range index 5. -/
theorem reorderImages_spec_witness :
    reorderImages ["A", "B", "C"] (some 1) = ["B", "A", "C"] ∧
    reorderImages ["A", "B", "C"] (some 5) = ["A", "B", "C"] := by
  constructor
  · have h := (reorderImages_spec ["A", "B", "C"] 1).1 (by constructor <;> decide)
    simpa using h
  · exact (reorderImages_spec ["A", "B", "C"] 5).2.1 (by decide)

/-! ## Collection Store mutations (App.tsx 54-68)

`saveCollection` both updates the in-memory React state and rewrites the
persisted `localStorage` slot; the store state below models the pair. -/

/-- The Collection Store's state: the in-memory collection plus the
persisted slot (`localStorage` key `horology_collection`); `none` means
nothing has been written yet. -/
structure StoreState where
  collection : List AppraisalReport
  slot : Option (List AppraisalReport)
  deriving DecidableEq

/-- `saveCollection` (App.tsx 54-57): set the in-memory collection and
fully rewrite the persisted slot. -/
def saveCollection (newCollection : List AppraisalReport) : StoreState :=
  { collection := newCollection, slot := some newCollection }

/-- `handleSaveToCollection` (App.tsx 59-63): no-op when a record with
the same id exists, otherwise prepend and persist. -/
def handleSaveToCollection (s : StoreState) (newReport : AppraisalReport) : StoreState :=
  if s.collection.any (fun item => item.id == newReport.id) then s
  else saveCollection (newReport :: s.collection)

/-- `handleDeleteFromCollection` (App.tsx 65-68): filter out the id and
persist. -/
def handleDeleteFromCollection (s : StoreState) (id : String) : StoreState :=
  saveCollection (s.collection.filter (fun item => item.id != id))

/-- C3: appending a report whose id is already in the collection leaves
the store (length and contents) unchanged; otherwise the report is
prepended as first element and the full collection is persisted. -/
theorem handleSaveToCollection_spec (s : StoreState) (newReport : AppraisalReport) :
    ((∃ item ∈ s.collection, item.id = newReport.id) →
        handleSaveToCollection s newReport = s) ∧
    ((∀ item ∈ s.collection, item.id ≠ newReport.id) →
        (handleSaveToCollection s newReport).collection = newReport :: s.collection ∧
        (handleSaveToCollection s newReport).slot = some (newReport :: s.collection)) := by
  constructor
  · rintro ⟨item, hmem, hid⟩
    have hany : s.collection.any (fun item => item.id == newReport.id) = true :=
      List.any_eq_true.mpr ⟨item, hmem, beq_iff_eq.mpr hid⟩
    simp [handleSaveToCollection, hany]
  · intro hall
    have hany : s.collection.any (fun item => item.id == newReport.id) = false := by
      simp only [List.any_eq_false]
      intro item hmem
      simpa using hall item hmem
    simp [handleSaveToCollection, hany, saveCollection]

/-- Helper: filtering out an id that occurs exactly once shortens the
list by exactly one element. -/
theorem length_filter_ne_of_countP_one (id : String) :
    ∀ l : List AppraisalReport, l.countP (fun r => r.id == id) = 1 →
      (l.filter (fun r => r.id != id)).length + 1 = l.length := by
  intro l
  induction l with
  | nil => intro h; simp at h
  | cons a rest ih =>
      intro h
      simp only [List.countP_cons] at h
      by_cases ha : a.id = id
      · have hc : (a.id == id) = true := by simpa using ha
        rw [if_pos hc] at h
        have hcount : rest.countP (fun r => r.id == id) = 0 := by omega
        have hrest : rest.filter (fun r => r.id != id) = rest := by
          rw [List.filter_eq_self]
          intro r hr
          have := List.countP_eq_zero.mp hcount r hr
          simpa using this
        have hfa : (a.id != id) = false := by simpa using ha
        simp only [List.filter_cons, hfa, Bool.false_eq_true, if_false, hrest,
          List.length_cons]
      · have hc : ¬((a.id == id) = true) := by simpa using ha
        rw [if_neg hc] at h
        have hcount : rest.countP (fun r => r.id == id) = 1 := by omega
        have hlen := ih hcount
        have hne : (a.id != id) = true := by simpa using ha
        simp only [List.filter_cons, hne, if_true, List.length_cons]
        omega

/-- C4: removing an id not present leaves the collection unchanged;
removing an id that occurs exactly once (ids are unique) shortens the
collection by exactly 1, removes every record with that id, and keeps
the remaining records in their original relative order (sublist). -/
theorem handleDeleteFromCollection_spec (s : StoreState) (id : String) :
    ((∀ r ∈ s.collection, r.id ≠ id) →
        (handleDeleteFromCollection s id).collection = s.collection) ∧
    (s.collection.countP (fun r => r.id == id) = 1 →
        (handleDeleteFromCollection s id).collection.length + 1 = s.collection.length ∧
        (∀ r ∈ (handleDeleteFromCollection s id).collection, r.id ≠ id) ∧
        (handleDeleteFromCollection s id).collection.Sublist s.collection) := by
  refine ⟨?_, ?_⟩
  · intro hall
    simp only [handleDeleteFromCollection, saveCollection]
    rw [List.filter_eq_self]
    intro r hr
    simpa using hall r hr
  · intro hcount
    refine ⟨length_filter_ne_of_countP_one id s.collection hcount, ?_, ?_⟩
    · intro r hr
      have := List.of_mem_filter hr
      simpa using this
    · exact List.filter_sublist s.collection

/-! ## Valuation Gateway (src/services/geminiService.ts 65-144)

`getMarketValuation` sends a schema-constrained request and then builds
the market data as `{ ...data, currency, sources: sources.slice(0, 5) }`
from the parsed `response.text`, without any client-side validation of
the parsed payload. The gateway response is modelled by what the client
actually reads from it: the parsed JSON payload (`none` covers both an
absent `response.text` and unparseable text, which both end in the same
catch) and the grounding chunks, each with an optional `web` citation. -/

/-- The parsed JSON payload of `response.text`: every schema field may be
absent since the client performs no validation. -/
structure RawMarketPayload where
  lowPrice : Option Int
  highPrice : Option Int
  averagePrice : Option Int
  retailPrice : Option Int
  currency : Option String
  priceSource : Option String
  trend : Option Trend
  history : Option String
  reviewsSummary : Option String
  pros : Option (List String)
  cons : Option (List String)
  deriving DecidableEq

/-- One grounding chunk; `web` is the optional `{ title, uri }` citation. -/
structure GroundingChunk where
  web : Option Source
  deriving DecidableEq

/-- What the client reads from a valuation-gateway response. -/
structure ValuationResponse where
  payload : Option RawMarketPayload
  groundingChunks : List GroundingChunk
  deriving DecidableEq

/-- The fixed localized message thrown on any valuation failure
(geminiService.ts 142). -/
def marketFailureMessage : String := "無法獲取市場數據，請稍後再試。"

/-- The citations extracted from the grounding chunks
(geminiService.ts 125-127): map each chunk to its `web` citation and
drop the `null`s. -/
def extractSources (chunks : List GroundingChunk) : List Source :=
  (chunks.map (fun chunk => chunk.web)).filterMap (fun s => s)

/-- `getMarketValuation` (geminiService.ts 65-144) with the network call
replaced by the response it yields. On a payload it returns
`{ ...data, currency: currency, sources: sources.slice(0, 5) }`; with no
parseable payload it throws, and the catch rethrows the fixed localized
message. -/
def getMarketValuation (resp : ValuationResponse) (currency : String) :
    Except String MarketData :=
  let sources := extractSources resp.groundingChunks
  match resp.payload with
  | some data =>
      Except.ok
        { lowPrice := data.lowPrice
          highPrice := data.highPrice
          averagePrice := data.averagePrice
          retailPrice := data.retailPrice
          currency := currency
          priceSource := data.priceSource
          trend := data.trend
          history := data.history
          reviewsSummary := data.reviewsSummary
          pros := data.pros
          cons := data.cons
          sources := sources.take 5 }
  | none => Except.error marketFailureMessage

/-- C5: every successful valuation carries the requested currency,
whatever currency the gateway's payload claims. -/
theorem getMarketValuation_currency (resp : ValuationResponse) (currency : String)
    (md : MarketData) (h : getMarketValuation resp currency = Except.ok md) :
    md.currency = currency := by
  cases hp : resp.payload with
  | none => simp [getMarketValuation, hp] at h
  | some data =>
      simp only [getMarketValuation, hp] at h
      cases h
      rfl

/-- C6: every successful valuation carries at most 5 source citations,
and they are exactly the first 5 supplied citations in original order. -/
theorem getMarketValuation_sources (resp : ValuationResponse) (currency : String)
    (md : MarketData) (h : getMarketValuation resp currency = Except.ok md) :
    md.sources.length ≤ 5 ∧
    md.sources = (extractSources resp.groundingChunks).take 5 := by
  cases hp : resp.payload with
  | none => simp [getMarketValuation, hp] at h
  | some data =>
      simp only [getMarketValuation, hp] at h
      cases h
      exact ⟨by simp, rfl⟩

/-! ## Appraisal Workflow (src/App.tsx)

The React component state, with the asynchronous gateway calls replaced
by their injected outcomes and the ambient `crypto.randomUUID()` /
`new Date().toLocaleDateString('zh-HK')` / `parseFloat(purchasePrice)`
values injected as parameters. -/

/-- The Workflow's transient state (the `useState` fields of App.tsx). -/
structure AppModel where
  state : AppState
  images : List String
  purchasePrice : String
  currency : String
  identity : Option WatchIdentity
  marketData : Option MarketData
  report : Option AppraisalReport
  error : Option String
  deriving DecidableEq

/-- `resetApp` (App.tsx 168-176): back to Idle with every transient field
cleared (`currency` is kept, it is not in the reset list). -/
def resetApp (m : AppModel) : AppModel :=
  { m with
    state := AppState.IDLE
    images := []
    purchasePrice := ""
    identity := none
    marketData := none
    report := none
    error := none }

/-- Navigation targets of `handleNavigate` (App.tsx 75). -/
inductive NavView
  | home
  | collection
  deriving DecidableEq

/-- `handleNavigate` (App.tsx 75-92). Navigating home from the collection
views picks ReportReady / IdentityConfirmed / reset depending on the
active report and identity, each branch also requiring the state not be
the detail view. -/
def handleNavigate (m : AppModel) (view : NavView) : AppModel :=
  match view with
  | NavView.collection => { m with state := AppState.VIEWING_COLLECTION }
  | NavView.home =>
      if m.state = AppState.VIEWING_COLLECTION ∨
          m.state = AppState.VIEWING_COLLECTION_DETAIL then
        if m.report.isSome ∧ m.state ≠ AppState.VIEWING_COLLECTION_DETAIL then
          { m with state := AppState.REPORT_READY }
        else if m.identity.isSome ∧ m.state ≠ AppState.VIEWING_COLLECTION_DETAIL then
          { m with state := AppState.IDENTITY_CONFIRMED }
        else resetApp m
      else m

/-- `analyzeImage` (App.tsx 120-140) with the Identification Gateway call
replaced by its outcome. At its only call site the `currentFullImages`
argument is exactly the image list just stored in the state, so the
reordering acts on `m.images`. On success the images are reordered by the
best-cover index, the identity stored and the state set to
IdentityConfirmed; on failure the error message (or its fallback) is
stored and the state set to Error. -/
def analyzeImage (m : AppModel) (result : Except String WatchIdentity) : AppModel :=
  match result with
  | Except.ok ident =>
      { m with
        state := AppState.IDENTITY_CONFIRMED
        error := none
        images := reorderImages m.images ident.bestImageIndex
        identity := some ident }
  | Except.error msg =>
      { m with
        state := AppState.ERROR
        error := some (jsOrString (some msg) "Failed to identify image") }

/-- The outcome of `handleImageUpload`: the resulting model, whether the
Identification Gateway was invoked, and whether the rejection notice
(`alert`) was shown. -/
structure UploadOutcome where
  model : AppModel
  gatewayCalled : Bool
  alertShown : Bool
  deriving DecidableEq

/-- `handleImageUpload` (App.tsx 94-118): an empty selection does
nothing; more than 3 files shows the notice and returns without any
state change or gateway call; otherwise the (encoded) files are stored
and `analyzeImage` runs with the gateway outcome `idResult`. -/
def handleImageUpload (m : AppModel) (files : List String)
    (idResult : Except String WatchIdentity) : UploadOutcome :=
  if files.length > 0 then
    if files.length > 3 then
      { model := m, gatewayCalled := false, alertShown := true }
    else
      { model := analyzeImage { m with images := files } idResult
        gatewayCalled := true
        alertShown := false }
  else
    { model := m, gatewayCalled := false, alertShown := false }

/-- `handleAppraisal` (App.tsx 142-166) with the Valuation Gateway call
replaced by the response it yields, and the ambient id, date stamp and
parsed price injected (`priceNum` stands for
`parseFloat(purchasePrice)`). Guard: returns unchanged when no identity
or an empty price string. On success assembles the report and reaches
ReportReady; on failure stores the thrown message and reaches Error. -/
def handleAppraisal (m : AppModel) (resp : ValuationResponse)
    (newId dateStr : String) (priceNum : Int) : AppModel :=
  match m.identity with
  | none => m
  | some ident =>
      if m.purchasePrice = "" then m
      else
        match getMarketValuation resp m.currency with
        | Except.ok data =>
            { m with
              state := AppState.REPORT_READY
              marketData := some data
              report := some
                { id := newId
                  date := dateStr
                  imageUrls := m.images
                  purchasePrice := priceNum
                  identity := ident
                  marketData := data } }
        | Except.error msg =>
            { m with
              state := AppState.ERROR
              error := some (jsOrString (some msg) "Failed to fetch market data") }

/-- C7: a batch of more than 3 files submitted in Idle is rejected with
an immediate notice, the state is untouched (still Idle) and the
Identification Gateway is never called. -/
theorem handleImageUpload_reject (m : AppModel) (files : List String)
    (idResult : Except String WatchIdentity)
    (hidle : m.state = AppState.IDLE) (hlen : 3 < files.length) :
    handleImageUpload m files idResult =
      { model := m, gatewayCalled := false, alertShown := true } ∧
    (handleImageUpload m files idResult).model.state = AppState.IDLE := by
  have h0 : files.length > 0 := by omega
  constructor
  · simp [handleImageUpload, h0, hlen]
  · simp [handleImageUpload, h0, hlen, hidle]

/-- C10: a legacy record with neither `imageUrls` nor the legacy
`imageUrl` migrates to an empty image list, so migration does not
establish the 1-3-entry image-list shape of `AppraisalReport`. -/
theorem migrateRecord_no_images (item : LegacyRecord)
    (h1 : item.imageUrls = none) (h2 : item.imageUrl = none) :
    (migrateRecord item).imageUrls = some [] ∧
    (∀ urls, (migrateRecord item).imageUrls = some urls →
      ¬(1 ≤ urls.length ∧ urls.length ≤ 3)) := by
  have himg : (migrateRecord item).imageUrls = some [] := by
    simp [migrateRecord, jsOrList, h1, h2]
  refine ⟨himg, ?_⟩
  intro urls hurls
  rw [himg] at hurls
  cases hurls
  simp

/-! ## C8: what actually fails a valuation

The spec requires every response missing a required field (average
price, currency, history, reviews summary, pros, cons, price source) to
fail. The client, however, spreads the parsed payload without checking
any field: only a response with no parseable payload throws. -/

/-- C8 (amended): the valuation step fails exactly at the client's actual
check: when the response has no parseable payload the Workflow enters
Error carrying the fixed localized message and no report is produced;
required-field enforcement is delegated to the gateway's response
schema, so a parseable payload is accepted whatever fields it misses. -/
theorem handleAppraisal_failure_spec (m : AppModel) (resp : ValuationResponse)
    (newId dateStr : String) (priceNum : Int)
    (hident : m.identity.isSome = true) (hprice : m.purchasePrice ≠ "")
    (hresp : resp.payload = none) :
    (handleAppraisal m resp newId dateStr priceNum).state = AppState.ERROR ∧
    (handleAppraisal m resp newId dateStr priceNum).error = some marketFailureMessage ∧
    (handleAppraisal m resp newId dateStr priceNum).report = m.report := by
  obtain ⟨ident, hi⟩ := Option.isSome_iff_exists.mp hident
  have hval : getMarketValuation resp m.currency = Except.error marketFailureMessage := by
    simp [getMarketValuation, hresp]
  have hmsg : jsOrString (some marketFailureMessage) "Failed to fetch market data"
      = marketFailureMessage := by
    have : marketFailureMessage ≠ "" := by decide
    simp [jsOrString, this]
  simp [handleAppraisal, hi, hprice, hval, hmsg]

/-! ## Concrete sample values for the closed check theorems -/

def sampleIdentity : WatchIdentity :=
  { brand := "Omega"
    model := "Speedmaster"
    referenceNumber := "145.022"
    estimatedYear := "1969"
    confidence := 95
    description := "chronograph"
    bestImageIndex := some 1 }

def sampleMarketData : MarketData :=
  { lowPrice := some 40000
    highPrice := some 60000
    averagePrice := some 50000
    retailPrice := none
    currency := "HKD"
    priceSource := some "Chrono24"
    trend := some Trend.stable
    history := some "h"
    reviewsSummary := some "r"
    pros := some ["a"]
    cons := some ["b"]
    sources := [] }

def sampleReport : AppraisalReport :=
  { id := "report-123"
    date := "2024-01-30"
    imageUrls := ["img1", "img2"]
    purchasePrice := 50000
    identity := sampleIdentity
    marketData := sampleMarketData }

def sampleReport2 : AppraisalReport :=
  { sampleReport with id := "report-456" }

/-- A complete parsed payload that claims currency HKD. -/
def samplePayload : RawMarketPayload :=
  { lowPrice := some 40000
    highPrice := some 60000
    averagePrice := some 50000
    retailPrice := none
    currency := some "HKD"
    priceSource := some "Chrono24"
    trend := some Trend.stable
    history := some "h"
    reviewsSummary := some "r"
    pros := some ["a"]
    cons := some ["b"] }

def responseClaimingHKD : ValuationResponse :=
  { payload := some samplePayload, groundingChunks := [] }

def responseEightSources : ValuationResponse :=
  { payload := some samplePayload
    groundingChunks :=
      [⟨some ⟨"s1", "u1"⟩⟩, ⟨some ⟨"s2", "u2"⟩⟩, ⟨some ⟨"s3", "u3"⟩⟩,
       ⟨some ⟨"s4", "u4"⟩⟩, ⟨some ⟨"s5", "u5"⟩⟩, ⟨some ⟨"s6", "u6"⟩⟩,
       ⟨some ⟨"s7", "u7"⟩⟩, ⟨some ⟨"s8", "u8"⟩⟩] }

/-- A payload that parses but misses every required field. -/
def emptyPayload : RawMarketPayload :=
  { lowPrice := none, highPrice := none, averagePrice := none, retailPrice := none,
    currency := none, priceSource := none, trend := none, history := none,
    reviewsSummary := none, pros := none, cons := none }

def responseMissingFields : ValuationResponse :=
  { payload := some emptyPayload, groundingChunks := [] }

def responseNoPayload : ValuationResponse :=
  { payload := none, groundingChunks := [] }

/-- The Workflow just after a confirmed identification, price entered. -/
def confirmedModel : AppModel :=
  { state := AppState.IDENTITY_CONFIRMED, images := ["img1"], purchasePrice := "100",
    currency := "USD", identity := some sampleIdentity, marketData := none,
    report := none, error := none }

def idleModel : AppModel :=
  { state := AppState.IDLE, images := [], purchasePrice := "", currency := "HKD",
    identity := none, marketData := none, report := none, error := none }

/-- The Workflow at the collection detail view with both a report and an
identity active (reachable: IdentityConfirmed, navigate to collection,
select a saved report). -/
def detailModel : AppModel :=
  { state := AppState.VIEWING_COLLECTION_DETAIL, images := [], purchasePrice := "",
    currency := "HKD", identity := some sampleIdentity, marketData := none,
    report := some sampleReport, error := none }

def collectionModelWithReport : AppModel :=
  { state := AppState.VIEWING_COLLECTION, images := ["img1"], purchasePrice := "100",
    currency := "HKD", identity := some sampleIdentity, marketData := none,
    report := some sampleReport, error := none }

/-- C8 counterexample: a parseable valuation payload missing the required
`averagePrice` (and every other required field) is not rejected: the
Workflow reaches ReportReady with a report instead of entering Error. -/
theorem valuation_missing_fields_not_rejected :
    responseMissingFields.payload = some emptyPayload ∧
    emptyPayload.averagePrice = none ∧
    (handleAppraisal confirmedModel responseMissingFields "id-1" "2024-01-01" 100).state
      = AppState.REPORT_READY ∧
    (handleAppraisal confirmedModel responseMissingFields "id-1" "2024-01-01" 100).state
      ≠ AppState.ERROR ∧
    (handleAppraisal confirmedModel responseMissingFields "id-1" "2024-01-01" 100).report
      ≠ none := by
  refine ⟨rfl, rfl, rfl, by decide, by decide⟩

/-! ## C9: navigating home from the collection views -/

/-- C9 counterexample: navigating home from the detail view with an
identity active lands in Idle, not IdentityConfirmed as the claim's
else-branch ("else IdentityConfirmed if an identity is active") states:
in the code the IdentityConfirmed branch also requires the state not be
the detail view. -/
theorem navigateHome_detail_counterexample :
    detailModel.state = AppState.VIEWING_COLLECTION_DETAIL ∧
    detailModel.identity.isSome = true ∧
    ¬(detailModel.report.isSome ∧ detailModel.state ≠ AppState.VIEWING_COLLECTION_DETAIL) ∧
    (handleNavigate detailModel NavView.home).state = AppState.IDLE ∧
    (handleNavigate detailModel NavView.home).state ≠ AppState.IDENTITY_CONFIRMED := by
  refine ⟨rfl, rfl, by decide, rfl, by decide⟩

/-- C9 (amended): navigating home from ViewingCollection yields
ReportReady when a report is active, else IdentityConfirmed when an
identity is active, else Idle with the transient fields cleared; from
ViewingCollectionDetail it always yields Idle with the transient fields
cleared (the report and identity branches both additionally require the
state not be the detail view). -/
theorem handleNavigate_home_spec (m : AppModel) :
    (m.state = AppState.VIEWING_COLLECTION → m.report.isSome = true →
        handleNavigate m NavView.home = { m with state := AppState.REPORT_READY }) ∧
    (m.state = AppState.VIEWING_COLLECTION → m.report = none → m.identity.isSome = true →
        handleNavigate m NavView.home = { m with state := AppState.IDENTITY_CONFIRMED }) ∧
    (m.state = AppState.VIEWING_COLLECTION → m.report = none → m.identity = none →
        handleNavigate m NavView.home =
          { m with state := AppState.IDLE, images := [], purchasePrice := "",
                   identity := none, marketData := none, report := none, error := none }) ∧
    (m.state = AppState.VIEWING_COLLECTION_DETAIL →
        handleNavigate m NavView.home =
          { m with state := AppState.IDLE, images := [], purchasePrice := "",
                   identity := none, marketData := none, report := none, error := none }) := by
  refine ⟨?_, ?_, ?_, ?_⟩
  · intro hs hr
    simp [handleNavigate, hs, hr]
  · intro hs hr hi
    simp [handleNavigate, hs, hr, hi]
  · intro hs hr hi
    simp [handleNavigate, resetApp, hs, hr, hi]
  · intro hs
    simp [handleNavigate, resetApp, hs]

/-! ## Closed witness checks -/

/-- Concrete check of C3: saving a duplicate id is a no-op; saving a
fresh id prepends and persists. -/
theorem handleSaveToCollection_spec_witness :
    handleSaveToCollection ⟨[sampleReport], none⟩ sampleReport = ⟨[sampleReport], none⟩ ∧
    (handleSaveToCollection ⟨[sampleReport], none⟩ sampleReport2).collection
      = [sampleReport2, sampleReport] ∧
    (handleSaveToCollection ⟨[sampleReport], none⟩ sampleReport2).slot
      = some [sampleReport2, sampleReport] := by
  have hdup := (handleSaveToCollection_spec ⟨[sampleReport], none⟩ sampleReport).1
    ⟨sampleReport, by simp, rfl⟩
  have hnew := (handleSaveToCollection_spec ⟨[sampleReport], none⟩ sampleReport2).2
    (by intro item hm; simp at hm; subst hm; decide)
  exact ⟨hdup, hnew.1, hnew.2⟩

/-- Concrete check of C4: deleting a missing id keeps the collection;
deleting a present unique id shortens it by one. -/
theorem handleDeleteFromCollection_spec_witness :
    (handleDeleteFromCollection ⟨[sampleReport], none⟩ "missing-id").collection
      = [sampleReport] ∧
    (handleDeleteFromCollection ⟨[sampleReport, sampleReport2], none⟩
        "report-123").collection.length + 1 = 2 := by
  constructor
  · exact (handleDeleteFromCollection_spec ⟨[sampleReport], none⟩ "missing-id").1
      (by intro r hr; simp at hr; subst hr; decide)
  · have h := (handleDeleteFromCollection_spec ⟨[sampleReport, sampleReport2], none⟩
      "report-123").2 (by decide)
    simpa using h.1

/-- Concrete check of C5: requesting USD against a payload claiming HKD
yields market data in USD. -/
theorem getMarketValuation_currency_witness :
    samplePayload.currency = some "HKD" ∧
    (getMarketValuation responseClaimingHKD "USD").map (fun md => md.currency)
      = Except.ok "USD" := by
  obtain ⟨md, hmd⟩ : ∃ md, getMarketValuation responseClaimingHKD "USD" = Except.ok md :=
    ⟨_, rfl⟩
  have hc := getMarketValuation_currency responseClaimingHKD "USD" md hmd
  refine ⟨rfl, ?_⟩
  rw [hmd]
  simp [Except.map, hc]

/-- Concrete check of C6: a response with 8 citations yields exactly the
first 5 in original order. -/
theorem getMarketValuation_sources_witness :
    (getMarketValuation responseEightSources "USD").map (fun md => md.sources)
      = Except.ok [⟨"s1", "u1"⟩, ⟨"s2", "u2"⟩, ⟨"s3", "u3"⟩, ⟨"s4", "u4"⟩,
          ⟨"s5", "u5"⟩] := by
  obtain ⟨md, hmd⟩ : ∃ md, getMarketValuation responseEightSources "USD" = Except.ok md :=
    ⟨_, rfl⟩
  have hs := (getMarketValuation_sources responseEightSources "USD" md hmd).2
  rw [hmd]
  simp only [Except.map]
  rw [hs]
  rfl

/-- Concrete check of C7: four files uploaded in Idle are rejected with
the notice, the model untouched and the gateway not called. -/
theorem handleImageUpload_reject_witness :
    handleImageUpload idleModel ["f1", "f2", "f3", "f4"] (Except.ok sampleIdentity) =
      { model := idleModel, gatewayCalled := false, alertShown := true } ∧
    (handleImageUpload idleModel ["f1", "f2", "f3", "f4"]
        (Except.ok sampleIdentity)).model.state = AppState.IDLE := by
  exact handleImageUpload_reject idleModel ["f1", "f2", "f3", "f4"]
    (Except.ok sampleIdentity) rfl (by decide)

/-- Concrete check of C8 (amended): a response with no parseable payload
sends the Workflow to Error with the fixed localized message. -/
theorem handleAppraisal_failure_spec_witness :
    (handleAppraisal confirmedModel responseNoPayload "id-2" "2024-01-02" 100).state
      = AppState.ERROR ∧
    (handleAppraisal confirmedModel responseNoPayload "id-2" "2024-01-02" 100).error
      = some marketFailureMessage := by
  have h := handleAppraisal_failure_spec confirmedModel responseNoPayload
    "id-2" "2024-01-02" 100 rfl (by decide) rfl
  exact ⟨h.1, h.2.1⟩

/-- Concrete check of C9 (amended): from ViewingCollection with a report,
home goes to ReportReady; from the detail view, home resets to Idle. -/
theorem handleNavigate_home_spec_witness :
    (handleNavigate collectionModelWithReport NavView.home).state
      = AppState.REPORT_READY ∧
    (handleNavigate detailModel NavView.home).images = [] ∧
    (handleNavigate detailModel NavView.home).state = AppState.IDLE := by
  have h1 := (handleNavigate_home_spec collectionModelWithReport).1 rfl rfl
  have h4 := (handleNavigate_home_spec detailModel).2.2.2 rfl
  rw [h1, h4]
  exact ⟨rfl, rfl, rfl⟩

/-- The legacy record used to check C10: no image fields at all. -/
def legacyNoImages : LegacyRecord :=
  { id := "legacy-1", date := "2023-01-01", imageUrl := none, imageUrls := none,
    purchasePrice := some 1000, identity := none,
    marketData :=
      { lowPrice := none, highPrice := none, averagePrice := some 9000,
        retailPrice := none, currency := none, priceSource := none, trend := none,
        history := none, reviewsSummary := none, pros := none, cons := none,
        sources := none } }

/-- Concrete check of C10: migrating a record with neither image field
yields an empty image list. -/
theorem migrateRecord_no_images_witness :
    (migrateRecord legacyNoImages).imageUrls = some [] := by
  exact (migrateRecord_no_images legacyNoImages rfl rfl).1

end Horology
